import Mathlib

/-!
Verification development for the outreach-service backend.

The definitions below are shallow embeddings of the TypeScript sources:
the two role-guard variants (src/auth/roles.guard.ts and the variant that
throws a forbidden exception), the two SupabaseStrategy.validate variants
(one keyed by the email claim, one keyed by the user id claim), the
JwtAuthGuard error mapping, and the batch email dispatcher in
src/emails/emails.service.ts.  External collaborators (the JWT library,
the account store, the email provider, JSON.parse, the wall clock) are
passed in as explicit parameters or modelled as inductive result types.
-/

/-- Roles are opaque string tags. -/
abbrev Role := String

/-- Modelled from the spec: the role enum file (role.enum.ts) is imported by
the guards and controllers but is not under src.  The spec calls its
distinguished member the administrative role and its examples use the tag
ADMIN. -/
def AccountRoles.ADMIN : Role := "ADMIN"

/-- The user object that the passport strategy attaches to the request.
The user_roles field is an Option: none models the field being absent or
not an array, which both guards test for explicitly. -/
structure JwtUser where
  user_id : String
  email : String
  user_roles : Option (List Role)
deriving DecidableEq

/-- Guard variant of src/src/auth/roles.guard.ts (the silently denying one):
returns true to allow, false to deny.  The required-role list comes from the
Roles decorator via the reflector and may be absent (none). -/
def RolesGuard.canActivate (roles : Option (List Role)) (user : Option JwtUser) : Bool :=
  match roles with
  | none => true
  | some rs =>
    if rs.isEmpty then true
    else
      match user with
      | none => false
      | some u =>
        match u.user_roles with
        | none => false
        | some ur =>
          ur.any (fun userRole => rs.any (fun requiredRole => requiredRole == userRole))

/-- Failure kinds of a denied request: unauthorized corresponds to an
UnauthorizedException, forbidden to a ForbiddenException. -/
inductive DenyKind
  | unauthorized
  | forbidden
deriving DecidableEq

/-- Observable outcome of the guard variant that throws on denial. -/
inductive GuardOutcome
  | allow
  | deny (kind : DenyKind) (msg : String)
deriving DecidableEq

/-- Guard variant of src/unnamed/part_009 (the one importing the role enum):
checks the ADMIN override and throws ForbiddenException on both denial
paths.  Missing user and missing/non-array user_roles share one combined
check. -/
def RolesGuardThrow.canActivate (requiredRoles : Option (List Role)) (user : Option JwtUser) :
    GuardOutcome :=
  match requiredRoles with
  | none => .allow
  | some rs =>
    if rs.isEmpty then .allow
    else
      match user with
      | none => .deny .forbidden "User authentication or role information missing"
      | some u =>
        match u.user_roles with
        | none => .deny .forbidden "User authentication or role information missing"
        | some ur =>
          if ur.contains AccountRoles.ADMIN then .allow
          else if rs.any (fun role => ur.contains role) then .allow
          else .deny .forbidden "Insufficient permissions to access this resource"

/-- Decoded token payload fields that SupabaseStrategy.validate reads. -/
structure JwtPayload where
  sub : Option String
  user_id : Option String
  email : Option String
deriving DecidableEq

/-- JavaScript truthiness filter on an optional string claim: absent and
empty strings are falsy. -/
def truthyClaim : Option String → Option String
  | none => none
  | some s => if s = "" then none else some s

/-- The expression payload.sub or payload.user_id or null. -/
def extractUserId (p : JwtPayload) : Option String :=
  (truthyClaim p.sub).orElse (fun _ => truthyClaim p.user_id)

/-- The expression payload.email or null. -/
def extractEmail (p : JwtPayload) : Option String :=
  truthyClaim p.email

/-- Dynamic (JSON-like) values, used for the roles column of the account
row and for the parse result of JSON.parse, which can be any JSON value. -/
inductive JsVal
  | jstr (s : String)
  | jnum (n : Int)
  | jbool (b : Bool)
  | jnull
  | jarr (elems : List JsVal)

/-- JavaScript truthiness of a dynamic value. -/
def JsVal.truthy : JsVal → Bool
  | .jnull => false
  | .jbool b => b
  | .jnum n => n != 0
  | .jstr s => s != ""
  | .jarr _ => true

/-- Array.isArray. -/
def JsVal.isArray : JsVal → Bool
  | .jarr _ => true
  | _ => false

/-- Length of an array value; 0 for non-arrays (the calling code only uses
this after an isArray check, where the JS length access would matter). -/
def JsVal.arrLen : JsVal → Nat
  | .jarr l => l.length
  | _ => 0

/-- Result of one account-store lookup: a reported error, a thrown call, no
matching row, or a found row. -/
inductive StoreResult (α : Type)
  | err (msg : String)
  | exn (msg : String)
  | notFound
  | found (row : α)

/-- A lookup outcome that yields no usable row. -/
def StoreResult.isFailure : StoreResult α → Bool
  | .err _ => true
  | .exn _ => true
  | .notFound => true
  | .found _ => false

/-- Account row of the email-keyed strategy variant: the roles column is a
JSON-encoded string.  The remaining columns are never read by validate and
are omitted. -/
structure AccountRowStr where
  roles : String
deriving DecidableEq

/-- Account row of the id-keyed strategy variant: the roles column arrives
as a dynamic value that the code tests with Array.isArray. -/
structure AccountRowArr where
  roles : JsVal

/-- The enriched identity that validate returns: the original payload
spread together with the user_id, email and user_roles fields. -/
structure EnhancedPayload where
  payload : JwtPayload
  user_id : Option String
  email : Option String
  user_roles : JsVal

/-- Default roles substituted by the email-keyed variant in development. -/
def DEV_DEFAULT_ROLES : JsVal :=
  .jarr [.jstr "ADMIN", .jstr "ORGANIZER"]

/-- The lookup key of the email-keyed variant (src/src/auth/supabase.strategy.ts):
the account query runs only inside the if (email) branch and filters by the
email column. -/
def SupabaseStrategy.lookupKey (p : JwtPayload) : Option String :=
  extractEmail p

/-- The try block of the email-keyed validate (supabase.strategy.ts lines
63 to 107): when an email key is present, look up the account row by email
and JSON-parse its roles string; every failure path leaves the initial
empty array in place. -/
def SupabaseStrategy.fetchRoles (store : String → StoreResult AccountRowStr)
    (parse : String → Option JsVal) : Option String → JsVal
  | none => .jarr []
  | some em =>
    match store em with
    | .err _ => .jarr []
    | .exn _ => .jarr []
    | .notFound => .jarr []
    | .found row =>
      match parse row.roles with
      | none => .jarr []
      | some v => v

/-- Validate of src/src/auth/supabase.strategy.ts.  The store argument is
the account-table lookup by email; parse models JSON.parse on the roles
string, returning none when the parse throws; env is NODE_ENV. -/
def SupabaseStrategy.validate (env : String) (store : String → StoreResult AccountRowStr)
    (parse : String → Option JsVal) (p : JwtPayload) : EnhancedPayload :=
  let userId := extractUserId p
  let email := extractEmail p
  let fetched : JsVal := SupabaseStrategy.fetchRoles store parse email
  let userRoles : JsVal :=
    if !fetched.truthy || !fetched.isArray || fetched.arrLen == 0 then
      if env = "development" then DEV_DEFAULT_ROLES else fetched
    else fetched
  { payload := p, user_id := userId, email := email, user_roles := userRoles }

/-- The lookup key of the id-keyed variant (src/unnamed/part_008): the
account query runs only inside the if (userId) branch and filters by the
user_id column. -/
def SupabaseStrategyById.lookupKey (p : JwtPayload) : Option String :=
  extractUserId p

/-- The try block of the id-keyed validate (src/unnamed/part_008 lines 62
to 107): when a user id key is present, look up the account row by user_id
and take its roles column when it is an array; every failure path leaves
the initial empty array in place. -/
def SupabaseStrategyById.fetchRoles (store : String → StoreResult AccountRowArr) :
    Option String → JsVal
  | none => .jarr []
  | some uid =>
    match store uid with
    | .err _ => .jarr []
    | .exn _ => .jarr []
    | .notFound => .jarr []
    | .found row => if row.roles.isArray then row.roles else .jarr []

/-- Validate of src/unnamed/part_008: keyed by the user id, the roles
column is used directly when it is an array, and there is no development
default. -/
def SupabaseStrategyById.validate (store : String → StoreResult AccountRowArr)
    (p : JwtPayload) : EnhancedPayload :=
  let userId := extractUserId p
  let email := extractEmail p
  let userRoles : JsVal := SupabaseStrategyById.fetchRoles store userId
  { payload := p, user_id := userId, email := email, user_roles := userRoles }

/-- Modelled from the spec: the lookup-key selection contract as the spec
words it — prefer the subject identifier; if absent, fall back to the email
claim; if both absent, no lookup.  Stated for comparison with the two
source-derived lookup keys. -/
def specLookupKey (p : JwtPayload) : Option String :=
  match p.sub with
  | some s => some s
  | none => p.email

/-- Character-list test: does the list start with the pattern. -/
def startsWithChars : List Char → List Char → Bool
  | _, [] => true
  | [], _ :: _ => false
  | c :: cs, q :: qs => c == q && startsWithChars cs qs

/-- Character-list substring test, mirroring the JS String.includes used by
the guard on error messages. -/
def includesChars : List Char → List Char → Bool
  | [], qs => qs.isEmpty
  | c :: cs, qs => startsWithChars (c :: cs) qs || includesChars cs qs

/-- The JS expression message.includes(pat). -/
def strIncludes (s pat : String) : Bool :=
  includesChars s.toList pat.toList

/-- Modelled from the spec: the bearer-token verifier itself is the external
passport-jwt / jsonwebtoken library, not code under src.  A token is
represented by its claims, its expiry instant, the secret it was signed
with, and a well-formedness flag; verification checks form, then signature,
then expiry, and reports the failure through the message of the thrown
error (jwt malformed, invalid signature, jwt expired), as the library
does. -/
structure BearerToken where
  payload : JwtPayload
  exp : Nat
  signedWith : String
  wellFormed : Bool

/-- Modelled from the spec: verification outcome of the external JWT
library, returning the claims or the message of the verification error. -/
def verifyJwt (t : BearerToken) (secret : String) (now : Nat) : Except String JwtPayload :=
  if !t.wellFormed then .error "jwt malformed"
  else if t.signedWith != secret then .error "invalid signature"
  else if t.exp < now then .error "jwt expired"
  else .ok t.payload

/-- A user-facing authentication error: every denial of JwtAuthGuard is an
UnauthorizedException carrying one of three messages. -/
inductive AuthError
  | unauthorized (msg : String)
deriving DecidableEq

/-- The catch block of JwtAuthGuard.canActivate (src/src/auth/jwt.auth.guard.ts
lines 77 to 102): inspect the message of the caught error and map it to a
distinct user-facing UnauthorizedException. -/
def JwtAuthGuard.mapCaughtError (msg : String) : AuthError :=
  if strIncludes msg "jwt expired" then
    .unauthorized "Your session has expired. Please login again."
  else if strIncludes msg "invalid signature" then
    .unauthorized "Invalid authentication token."
  else
    .unauthorized "Authentication failed. Please check your credentials."

/-- JwtAuthGuard.canActivate on the failure path: run verification and map
any verification error through the catch block. -/
def JwtAuthGuard.authenticate (t : BearerToken) (secret : String) (now : Nat) :
    Except AuthError JwtPayload :=
  match verifyJwt t secret now with
  | .ok p => .ok p
  | .error msg => .error (JwtAuthGuard.mapCaughtError msg)

/-- A recipient entry of SendEmailDto; only its email address is read. -/
structure Recipient where
  email : String
deriving DecidableEq

/-- One email unit as submitted to the service (SendEmailDto).  Attachment
contents are abstracted to strings; the optional field mirrors the optional
DTO property. -/
structure SendEmailDto where
  sender : String
  toAddrs : List Recipient
  subject : String
  html : String
  attachments : Option (List String)
deriving DecidableEq

/-- One item of the provider batch payload (ResendBatchItem): recipients
are flattened to their addresses and absent attachments are omitted. -/
structure OutboundMessage where
  sender : String
  toAddrs : List String
  subject : String
  html : String
  attachments : Option (List String)
deriving DecidableEq

/-- The payload preparation map of sendBatchEmails (emails.service.ts lines
97 to 105). -/
def toBatchItem (d : SendEmailDto) : OutboundMessage :=
  { sender := d.sender
    toAddrs := d.toAddrs.map Recipient.email
    subject := d.subject
    html := d.html
    attachments := d.attachments }

/-- The Email entity recorded for a delivered message (emails.entity.ts
fields used by the dispatcher; createdAt and updatedAt wall-clock fields
are not modelled). -/
structure Email where
  id : String
  sender : String
  toAddrs : List String
  subject : String
  html : String
  status : String
deriving DecidableEq

/-- The message-content part of an email record, used to compare sent
records with input messages. -/
structure EmailContent where
  sender : String
  toAddrs : List String
  subject : String
  html : String
deriving DecidableEq

/-- Content of an outbound message. -/
def OutboundMessage.content (m : OutboundMessage) : EmailContent :=
  { sender := m.sender, toAddrs := m.toAddrs, subject := m.subject, html := m.html }

/-- Content of a sent email record. -/
def Email.content (e : Email) : EmailContent :=
  { sender := e.sender, toAddrs := e.toAddrs, subject := e.subject, html := e.html }

/-- Provider batch ceiling (emails.service.ts line 108). -/
def MAX_BATCH_SIZE : Nat := 20

/-- Retry ceiling per batch (emails.service.ts line 125). -/
def MAX_RETRIES : Nat := 2

/-- Fuel-driven chunking that mirrors the slicing loop of emails.service.ts
lines 111 to 113: repeatedly slice off the first n elements.  The fuel is
always instantiated with the list length, which suffices whenever n is
positive. -/
def chunksOfAux (n : Nat) : Nat → List α → List (List α)
  | 0, _ => []
  | _, [] => []
  | fuel + 1, x :: xs => (x :: xs).take n :: chunksOfAux n fuel ((x :: xs).drop n)

/-- The batches produced by the slicing loop. -/
def chunksOf (n : Nat) (l : List α) : List (List α) :=
  chunksOfAux n l.length l

/-- Observable external effects of the dispatch loop: a provider batch-send
call (with batch index and attempt number), a retry backoff sleep, and an
inter-batch pacing sleep (milliseconds). -/
inductive DispatchEvent
  | sendCall (batchIdx attempt : Nat)
  | retryDelay (ms : Nat)
  | batchPause (ms : Nat)
deriving DecidableEq

/-- The retry loop for one batch (emails.service.ts lines 129 to 186): the
oracle ok tells whether the provider call for a given batch index and
attempt number succeeds; remaining counts the attempts still allowed and
starts at MAX_RETRIES + 1.  Returns the success flag and the emitted
events; a failed attempt with retries left sleeps 2000 * retryCount ms. -/
def runBatch (ok : Nat → Nat → Bool) (bIdx : Nat) : Nat → Nat → Bool × List DispatchEvent
  | _, 0 => (false, [])
  | attempt, r + 1 =>
    if ok bIdx attempt then (true, [DispatchEvent.sendCall bIdx attempt])
    else if r = 0 then (false, [DispatchEvent.sendCall bIdx attempt])
    else
      let rest := runBatch ok bIdx (attempt + 1) r
      (rest.1,
        DispatchEvent.sendCall bIdx attempt
          :: DispatchEvent.retryDelay (2000 * (attempt + 1)) :: rest.2)

/-- Accumulated dispatch state: sent records, failed-batch count, events. -/
structure DispatchState where
  sent : List Email
  failedBatches : Nat
  events : List DispatchEvent
deriving DecidableEq

/-- The Email entity built for one delivered batch item (emails.service.ts
lines 146 to 155); sentCount is the length of the sent list when the batch
response is mapped and now stands for Date.now(). -/
def emailOfItem (now sentCount idx : Nat) (m : OutboundMessage) : Email :=
  { id := "batch-" ++ toString (sentCount + idx) ++ "-" ++ toString now
    sender := m.sender
    toAddrs := m.toAddrs
    subject := m.subject
    html := m.html
    status := "delivered" }

/-- One iteration of the batch loop: run the retry loop, append the mapped
records on success or bump the failed count on exhaustion, then insert the
pacing pause before every batch but the last (emails.service.ts lines 123
to 194). -/
def stepBatch (ok : Nat → Nat → Bool) (now total bIdx : Nat) (b : List OutboundMessage)
    (st : DispatchState) : DispatchState :=
  let att := runBatch ok bIdx 0 (MAX_RETRIES + 1)
  let st1 :=
    if att.1 then
      { st with
        sent := st.sent ++ b.enum.map (fun q => emailOfItem now st.sent.length q.1 q.2)
        events := st.events ++ att.2 }
    else
      { st with failedBatches := st.failedBatches + 1, events := st.events ++ att.2 }
  if bIdx < total - 1 then
    { st1 with events := st1.events ++ [DispatchEvent.batchPause (if 5 < total then 2000 else 1000)] }
  else st1

/-- The batch loop itself, processing batches in order from index bIdx. -/
def dispatchGo (ok : Nat → Nat → Bool) (now total : Nat) :
    Nat → List (List OutboundMessage) → DispatchState → DispatchState
  | _, [], st => st
  | bIdx, b :: rest, st =>
    dispatchGo ok now total (bIdx + 1) rest (stepBatch ok now total bIdx b st)

/-- Request body of the batch endpoint. -/
structure SendBatchEmailsDto where
  emails : List SendEmailDto
deriving DecidableEq

/-- The batches the dispatcher builds from a request: payload preparation
followed by the slicing loop. -/
def EmailsService.batchesOf (dto : SendBatchEmailsDto) : List (List OutboundMessage) :=
  chunksOf MAX_BATCH_SIZE (dto.emails.map toBatchItem)

/-- Full run of EmailsService.sendBatchEmails, exposing the accumulated
state (sent records, failed-batch count, events).  The oracle ok supplies
the provider outcome per batch index and attempt, and now stands for
Date.now() at response-mapping time. -/
def EmailsService.sendBatchEmailsRun (ok : Nat → Nat → Bool) (now : Nat)
    (dto : SendBatchEmailsDto) : DispatchState :=
  let batches := EmailsService.batchesOf dto
  dispatchGo ok now batches.length 0 batches ⟨[], 0, []⟩

/-- The value sendBatchEmails actually returns to its caller: the sent
list alone (emails.service.ts line 207). -/
def EmailsService.sendBatchEmails (ok : Nat → Nat → Bool) (now : Nat)
    (dto : SendBatchEmailsDto) : List Email :=
  (EmailsService.sendBatchEmailsRun ok now dto).sent

/-- A batch succeeds when some attempt within the retry ceiling succeeds. -/
def batchSucceeds (ok : Nat → Nat → Bool) (i : Nat) : Bool :=
  ok i 0 || ok i 1 || ok i 2

/-- Concatenation of the successful batches, in order, processing from
batch index i. -/
def joinSucc (ok : Nat → Nat → Bool) : Nat → List (List OutboundMessage) → List OutboundMessage
  | _, [] => []
  | i, b :: bs => (if batchSucceeds ok i then b else []) ++ joinSucc ok (i + 1) bs

/-- Number of exhausted batches, processing from batch index i. -/
def countFail (ok : Nat → Nat → Bool) : Nat → List (List OutboundMessage) → Nat
  | _, [] => 0
  | i, _ :: bs =>
    (if batchSucceeds ok i then 0 else 1) + countFail ok (i + 1) bs

/-- A concrete recipient for witness scenarios. -/
def demoRecipient : Recipient := ⟨"r@x.c"⟩

/-- A concrete email DTO for witness scenarios. -/
def demoEmailDto : SendEmailDto := ⟨"s@x.c", [demoRecipient], "subj", "<p>hi</p>", none⟩

/-- A concrete 21-message request, which splits into two batches. -/
def demoBatchDto : SendBatchEmailsDto := ⟨List.replicate 21 demoEmailDto⟩

/-- Fuel irrelevance for the chunking loop: any fuel at least the length of
the list gives the same batches, provided the chunk size is positive. -/
theorem chunksOfAux_fuel (n : Nat) (hn : n ≠ 0) :
    ∀ (fuel : Nat) (l : List α), l.length ≤ fuel → chunksOfAux n fuel l = chunksOf n l := by
  intro fuel
  induction fuel using Nat.strong_induction_on with
  | _ fuel ih =>
    intro l hl
    match fuel, l with
    | 0, [] => rfl
    | f + 1, [] => rfl
    | 0, x :: xs => simp at hl
    | f + 1, x :: xs =>
      have hlen : xs.length ≤ f := by
        simp only [List.length_cons] at hl
        omega
      have hdf : ((x :: xs).drop n).length ≤ f := by
        rw [List.length_drop]
        simp only [List.length_cons]
        omega
      have hdx : ((x :: xs).drop n).length ≤ xs.length := by
        rw [List.length_drop]
        simp only [List.length_cons]
        omega
      show (x :: xs).take n :: chunksOfAux n f ((x :: xs).drop n) = chunksOf n (x :: xs)
      rw [ih f (by omega) _ hdf]
      show _ = (x :: xs).take n :: chunksOfAux n xs.length ((x :: xs).drop n)
      rw [ih xs.length (by omega) _ hdx]

/-- Unfolding of chunksOf on a nonempty list for positive chunk size. -/
theorem chunksOf_cons (n : Nat) (hn : n ≠ 0) (x : α) (xs : List α) :
    chunksOf n (x :: xs) = (x :: xs).take n :: chunksOf n ((x :: xs).drop n) := by
  show (x :: xs).take n :: chunksOfAux n xs.length ((x :: xs).drop n) = _
  rw [chunksOfAux_fuel n hn xs.length]
  rw [List.length_drop]
  simp only [List.length_cons]
  omega

/-- Concatenating the batches recovers the input list. -/
theorem chunksOf_flatten (n : Nat) (hn : n ≠ 0) (l : List α) : (chunksOf n l).flatten = l := by
  generalize hk : l.length = k
  induction k using Nat.strong_induction_on generalizing l with
  | _ k ih =>
    match l with
    | [] => rfl
    | x :: xs =>
      rw [chunksOf_cons n hn]
      rw [List.flatten_cons]
      rw [ih ((x :: xs).drop n).length _ _ rfl]
      · exact List.take_append_drop n (x :: xs)
      · rw [List.length_drop]
        subst hk
        simp only [List.length_cons]
        omega

/-- Every batch respects the size ceiling. -/
theorem chunksOf_size_le (n : Nat) (hn : n ≠ 0) (l : List α) :
    ∀ b, b ∈ chunksOf n l → b.length ≤ n := by
  generalize hk : l.length = k
  induction k using Nat.strong_induction_on generalizing l with
  | _ k ih =>
    match l with
    | [] => intro b hb; exact absurd hb (by simp [chunksOf, chunksOfAux])
    | x :: xs =>
      rw [chunksOf_cons n hn]
      intro b hb
      rcases List.mem_cons.mp hb with h | h
      · subst h
        exact List.length_take_le n (x :: xs)
      · refine ih ((x :: xs).drop n).length ?_ _ rfl b h
        rw [List.length_drop]
        subst hk
        simp only [List.length_cons]
        omega

/-- The number of batches is the ceiling of the length divided by 20, for
the concrete provider ceiling. -/
theorem chunksOf_length_twenty (l : List α) :
    (chunksOf 20 l).length = (l.length + 19) / 20 := by
  generalize hk : l.length = k
  induction k using Nat.strong_induction_on generalizing l with
  | _ k ih =>
    match l with
    | [] =>
      simp only [List.length_nil] at hk
      subst hk
      rfl
    | x :: xs =>
      rw [chunksOf_cons 20 (by omega)]
      rw [List.length_cons]
      rw [ih ((x :: xs).drop 20).length _ _ rfl]
      · rw [List.length_drop]
        subst hk
        simp only [List.length_cons]
        omega
      · rw [List.length_drop]
        subst hk
        simp only [List.length_cons]
        omega

/-- Unfolding equation for one allowed attempt of the retry loop. -/
theorem runBatch_eq (ok : Nat → Nat → Bool) (bIdx attempt r : Nat) :
    runBatch ok bIdx attempt (r + 1) =
      if ok bIdx attempt then (true, [DispatchEvent.sendCall bIdx attempt])
      else if r = 0 then (false, [DispatchEvent.sendCall bIdx attempt])
      else
        ((runBatch ok bIdx (attempt + 1) r).1,
          DispatchEvent.sendCall bIdx attempt
            :: DispatchEvent.retryDelay (2000 * (attempt + 1))
            :: (runBatch ok bIdx (attempt + 1) r).2) := rfl

/-- The retry loop succeeds exactly when one of the three allowed attempts
succeeds. -/
theorem runBatch_fst (ok : Nat → Nat → Bool) (i : Nat) :
    (runBatch ok i 0 (MAX_RETRIES + 1)).1 = batchSucceeds ok i := by
  show (runBatch ok i 0 (2 + 1)).1 = batchSucceeds ok i
  rw [runBatch_eq]
  rw [show (2 : Nat) = 1 + 1 from rfl]
  rw [runBatch_eq]
  rw [show (1 : Nat) = 0 + 1 from rfl]
  rw [runBatch_eq]
  cases h0 : ok i 0 <;> cases h1 : ok i 1 <;> cases h2 : ok i 2 <;>
    simp [h0, h1, h2, batchSucceeds]

/-- The first emitted event of the retry loop is the initial provider
call. -/
theorem runBatch_sendCall_mem (ok : Nat → Nat → Bool) (i attempt r : Nat) :
    DispatchEvent.sendCall i attempt ∈ (runBatch ok i attempt (r + 1)).2 := by
  rw [runBatch_eq]
  split
  · exact List.mem_singleton.mpr rfl
  · split
    · exact List.mem_singleton.mpr rfl
    · exact List.mem_cons_self _ _

/-- Sent records after one loop iteration: unchanged on exhaustion, the
mapped batch appended on success. -/
theorem stepBatch_sent (ok : Nat → Nat → Bool) (now total bIdx : Nat)
    (b : List OutboundMessage) (st : DispatchState) :
    (stepBatch ok now total bIdx b st).sent =
      st.sent ++
        (if batchSucceeds ok bIdx then
          b.enum.map (fun q => emailOfItem now st.sent.length q.1 q.2)
        else []) := by
  simp only [stepBatch, runBatch_fst]
  cases h : batchSucceeds ok bIdx <;> split <;> simp [h]

/-- Failed-batch count after one loop iteration. -/
theorem stepBatch_failed (ok : Nat → Nat → Bool) (now total bIdx : Nat)
    (b : List OutboundMessage) (st : DispatchState) :
    (stepBatch ok now total bIdx b st).failedBatches =
      st.failedBatches + (if batchSucceeds ok bIdx then 0 else 1) := by
  simp only [stepBatch, runBatch_fst]
  cases h : batchSucceeds ok bIdx <;> split <;> simp [h]

/-- Events already emitted are preserved by one loop iteration. -/
theorem stepBatch_events_mono (ok : Nat → Nat → Bool) (now total bIdx : Nat)
    (b : List OutboundMessage) (st : DispatchState) (e : DispatchEvent)
    (he : e ∈ st.events) :
    e ∈ (stepBatch ok now total bIdx b st).events := by
  simp only [stepBatch]
  split <;> split <;> simp [he]

/-- One loop iteration emits the initial provider call for its batch. -/
theorem stepBatch_events_call (ok : Nat → Nat → Bool) (now total bIdx : Nat)
    (b : List OutboundMessage) (st : DispatchState) :
    DispatchEvent.sendCall bIdx 0 ∈ (stepBatch ok now total bIdx b st).events := by
  have h := runBatch_sendCall_mem ok bIdx 0 MAX_RETRIES
  simp only [stepBatch]
  split <;> split <;> simp [h]

/-- Content of the records mapped from one delivered batch: exactly the
content of the batch messages, in order. -/
theorem map_content_emailOfItem (now c : Nat) (b : List OutboundMessage) :
    (b.enum.map (fun q => emailOfItem now c q.1 q.2)).map Email.content =
      b.map OutboundMessage.content := by
  rw [List.map_map]
  have h : (Email.content ∘ fun q : Nat × OutboundMessage => emailOfItem now c q.1 q.2) =
      (OutboundMessage.content ∘ Prod.snd) := by
    funext q
    rfl
  rw [h]
  rw [← List.map_map]
  rw [List.enum_map_snd]

/-- Composed form of the previous lemma, matching the normal form that simp
produces. -/
theorem map_content_emailOfItem_comp (now c : Nat) (b : List OutboundMessage) :
    List.map (Email.content ∘ fun q : Nat × OutboundMessage => emailOfItem now c q.1 q.2)
      b.enum = List.map OutboundMessage.content b := by
  rw [← List.map_map]
  exact map_content_emailOfItem now c b

/-- Content of the sent records after the whole loop: what was already
sent, followed by the content of every successful batch in order. -/
theorem dispatchGo_sent_content (ok : Nat → Nat → Bool) (now total : Nat) :
    ∀ (bs : List (List OutboundMessage)) (i : Nat) (st : DispatchState),
      (dispatchGo ok now total i bs st).sent.map Email.content =
        st.sent.map Email.content ++ (joinSucc ok i bs).map OutboundMessage.content
  | [], i, st => by simp [dispatchGo, joinSucc]
  | b :: rest, i, st => by
    show (dispatchGo ok now total (i + 1) rest (stepBatch ok now total i b st)).sent.map
        Email.content = _
    rw [dispatchGo_sent_content ok now total rest (i + 1) (stepBatch ok now total i b st)]
    rw [stepBatch_sent]
    show _ = st.sent.map Email.content ++
        ((if batchSucceeds ok i then b else []) ++ joinSucc ok (i + 1) rest).map
          OutboundMessage.content
    cases h : batchSucceeds ok i <;>
      simp [h, map_content_emailOfItem_comp, List.map_append, List.append_assoc]

/-- Failed-batch count after the whole loop. -/
theorem dispatchGo_failed (ok : Nat → Nat → Bool) (now total : Nat) :
    ∀ (bs : List (List OutboundMessage)) (i : Nat) (st : DispatchState),
      (dispatchGo ok now total i bs st).failedBatches =
        st.failedBatches + countFail ok i bs
  | [], i, st => by simp [dispatchGo, countFail]
  | b :: rest, i, st => by
    show (dispatchGo ok now total (i + 1) rest (stepBatch ok now total i b st)).failedBatches = _
    rw [dispatchGo_failed ok now total rest (i + 1) (stepBatch ok now total i b st)]
    rw [stepBatch_failed]
    show _ = st.failedBatches +
        ((if batchSucceeds ok i then 0 else 1) + countFail ok (i + 1) rest)
    omega

/-- Events already emitted are preserved by the whole loop. -/
theorem dispatchGo_events_mono (ok : Nat → Nat → Bool) (now total : Nat) :
    ∀ (bs : List (List OutboundMessage)) (i : Nat) (st : DispatchState) (e : DispatchEvent),
      e ∈ st.events → e ∈ (dispatchGo ok now total i bs st).events
  | [], _, _, _, he => he
  | b :: rest, i, st, e, he =>
    dispatchGo_events_mono ok now total rest (i + 1) (stepBatch ok now total i b st) e
      (stepBatch_events_mono ok now total i b st e he)

/-- Every batch in range gets its initial provider call emitted. -/
theorem dispatchGo_sendCall (ok : Nat → Nat → Bool) (now total : Nat) :
    ∀ (bs : List (List OutboundMessage)) (i : Nat) (st : DispatchState) (k : Nat),
      k < bs.length →
        DispatchEvent.sendCall (i + k) 0 ∈ (dispatchGo ok now total i bs st).events
  | [], _, _, k, hk => absurd hk (by simp)
  | b :: rest, i, st, 0, _ => by
    show DispatchEvent.sendCall (i + 0) 0 ∈
      (dispatchGo ok now total (i + 1) rest (stepBatch ok now total i b st)).events
    rw [Nat.add_zero]
    exact dispatchGo_events_mono ok now total rest (i + 1) _ _
      (stepBatch_events_call ok now total i b st)
  | b :: rest, i, st, k + 1, hk => by
    show DispatchEvent.sendCall (i + (k + 1)) 0 ∈
      (dispatchGo ok now total (i + 1) rest (stepBatch ok now total i b st)).events
    have h := dispatchGo_sendCall ok now total rest (i + 1) (stepBatch ok now total i b st) k
      (by simp only [List.length_cons] at hk; omega)
    rw [show i + (k + 1) = i + 1 + k by omega]
    exact h

/-- Membership in the successful-batch concatenation locates a successful
batch containing the element. -/
theorem mem_joinSucc (ok : Nat → Nat → Bool) :
    ∀ (bs : List (List OutboundMessage)) (i : Nat) (m : OutboundMessage),
      m ∈ joinSucc ok i bs →
        ∃ k, ∃ hk : k < bs.length,
          batchSucceeds ok (i + k) = true ∧ m ∈ bs.get ⟨k, hk⟩
  | [], i, m, hm => absurd hm (by simp [joinSucc])
  | b :: rest, i, m, hm => by
    rcases List.mem_append.mp hm with h | h
    · refine ⟨0, by simp, ?_, ?_⟩
      · rw [Nat.add_zero]
        cases hs : batchSucceeds ok i
        · rw [hs] at h
          exact absurd h (by simp)
        · rfl
      · cases hs : batchSucceeds ok i
        · rw [hs] at h
          exact absurd h (by simp)
        · rw [hs] at h
          simpa using h
    · obtain ⟨k, hk, hsucc, hmem⟩ := mem_joinSucc ok rest (i + 1) m h
      refine ⟨k + 1, by simpa using Nat.succ_lt_succ hk, ?_, by simpa using hmem⟩
      rw [show i + (k + 1) = i + 1 + k by omega]
      exact hsucc

/-- Exhausted-batch counts agree for two oracles whose per-batch outcomes
agree on the processed range. -/
theorem countFail_congr (ok ok' : Nat → Nat → Bool) :
    ∀ (bs : List (List OutboundMessage)) (i : Nat),
      (∀ k, k < bs.length → batchSucceeds ok (i + k) = batchSucceeds ok' (i + k)) →
        countFail ok i bs = countFail ok' i bs
  | [], _, _ => rfl
  | b :: rest, i, h => by
    show (if batchSucceeds ok i then 0 else 1) + countFail ok (i + 1) rest = _
    have h0 := h 0 (by simp)
    rw [Nat.add_zero] at h0
    rw [h0]
    rw [countFail_congr ok ok' rest (i + 1) (fun k hk => by
      have := h (k + 1) (by simp only [List.length_cons]; omega)
      rw [show i + (k + 1) = i + 1 + k by omega] at this
      exact this)]
    rfl

/-- Exactly one more exhausted batch when the oracles agree everywhere
except at one in-range batch index, where the first fails and the second
succeeds. -/
theorem countFail_succ_at (ok ok' : Nat → Nat → Bool) (j : Nat) :
    ∀ (bs : List (List OutboundMessage)) (i : Nat),
      i ≤ j → j < i + bs.length →
      (∀ m, m ≠ j → batchSucceeds ok m = batchSucceeds ok' m) →
      batchSucceeds ok j = false → batchSucceeds ok' j = true →
        countFail ok i bs = countFail ok' i bs + 1
  | [], i, hij, hj, _, _, _ => by simp only [List.length_nil, Nat.add_zero] at hj; omega
  | b :: rest, i, hij, hj, hagree, hfail, hsucc => by
    show (if batchSucceeds ok i then 0 else 1) + countFail ok (i + 1) rest =
      (if batchSucceeds ok' i then 0 else 1) + countFail ok' (i + 1) rest + 1
    by_cases hi : i = j
    · subst hi
      rw [hfail, hsucc]
      rw [countFail_congr ok ok' rest (i + 1) (fun k _ => hagree (i + 1 + k) (by omega))]
      show 1 + countFail ok' (i + 1) rest = 0 + countFail ok' (i + 1) rest + 1
      omega
    · rw [hagree i hi]
      rw [countFail_succ_at ok ok' j rest (i + 1) (by omega)
        (by simp only [List.length_cons] at hj; omega) hagree hfail hsucc]
      omega

/-- Counterexample to C1: in the silently denying guard variant
(src/src/auth/roles.guard.ts), an identity whose role set contains the
administrative role is DENIED on a route requiring only a role it does not
hold — that variant has no admin override. -/
theorem rolesGuard_admin_override_cex :
    RolesGuard.canActivate (some ["ORGANIZER"]) (some ⟨"u1", "a@b.c", some ["ADMIN"]⟩) = false := by
  decide

/-- C1 (amended): the admin override holds in the guard variant that throws
on denial (src/unnamed/part_009): any present identity whose role set
contains the administrative role is allowed, whatever the declared
required-role list is. -/
theorem rolesGuardThrow_admin_override (req : Option (List Role)) (uid em : String)
    (urs : List Role) (hadmin : AccountRoles.ADMIN ∈ urs) :
    RolesGuardThrow.canActivate req (some ⟨uid, em, some urs⟩) = .allow := by
  have hc : urs.contains AccountRoles.ADMIN = true := by
    cases hc : urs.contains AccountRoles.ADMIN
    · exact absurd (List.elem_iff.mpr hadmin) (by simp [List.contains] at hc ⊢; exact hc)
    · rfl
  match req with
  | none => rfl
  | some rs =>
    simp only [RolesGuardThrow.canActivate]
    split
    · rfl
    · simp [hc]

/-- Witness for the amended C1: the spec example — an identity holding only
ADMIN on a route requiring ORGANIZER is allowed by the throwing variant. -/
theorem rolesGuardThrow_admin_override_witness :
    RolesGuardThrow.canActivate (some ["ORGANIZER"]) (some ⟨"u1", "a@b.c", some ["ADMIN"]⟩) =
      .allow :=
  rolesGuardThrow_admin_override (some ["ORGANIZER"]) "u1" "a@b.c" ["ADMIN"] (by decide)

/-- Counterexample to C2: with a non-empty required-role list and NO
identity on the request, the throwing guard variant denies with the
forbidden kind, not the unauthorized kind the claim requires. -/
theorem rolesGuard_missing_user_kind_cex :
    RolesGuardThrow.canActivate (some ["ADMIN"]) none =
      .deny .forbidden "User authentication or role information missing"
  ∧ DenyKind.forbidden ≠ DenyKind.unauthorized := by
  refine ⟨rfl, ?_⟩
  decide

/-- C2 (amended): when a route declares at least one required role, both
denial cases of the roles guards are observable, but with the same
forbidden kind (distinguished only by message) in the throwing variant,
and as the same plain false in the silent variant: a missing identity and
an identity lacking every required role are both denied; neither guard
produces the unauthorized kind. -/
theorem rolesGuard_denial_kinds (req : List Role) (hreq : req ≠ []) (uid em : String)
    (urs : List Role) (hadmin : AccountRoles.ADMIN ∉ urs)
    (hinter : ∀ r, r ∈ req → r ∉ urs) :
    RolesGuardThrow.canActivate (some req) none =
      .deny .forbidden "User authentication or role information missing"
  ∧ RolesGuardThrow.canActivate (some req) (some ⟨uid, em, some urs⟩) =
      .deny .forbidden "Insufficient permissions to access this resource"
  ∧ RolesGuard.canActivate (some req) none = false
  ∧ RolesGuard.canActivate (some req) (some ⟨uid, em, some urs⟩) = false := by
  have hne : req.isEmpty = false := by
    cases req with
    | nil => exact absurd rfl hreq
    | cons a as => rfl
  have hcA : urs.contains AccountRoles.ADMIN = false := by
    cases hc : urs.contains AccountRoles.ADMIN
    · rfl
    · exact absurd (List.elem_iff.mp hc) hadmin
  have hany : req.any (fun role => urs.contains role) = false := by
    cases ha : req.any (fun role => urs.contains role)
    · rfl
    · obtain ⟨r, hr, hcr⟩ := List.any_eq_true.mp ha
      exact absurd (List.elem_iff.mp hcr) (hinter r hr)
  have hanyS : urs.any (fun userRole => req.any (fun requiredRole => requiredRole == userRole)) =
      false := by
    cases ha : urs.any (fun userRole => req.any (fun requiredRole => requiredRole == userRole))
    · rfl
    · obtain ⟨u, hu, hru⟩ := List.any_eq_true.mp ha
      obtain ⟨r, hr, hb⟩ := List.any_eq_true.mp hru
      exact absurd (beq_iff_eq.mp hb ▸ hu) (hinter r hr)
  refine ⟨?_, ?_, ?_, ?_⟩
  · simp [RolesGuardThrow.canActivate, hne]
  · simp only [RolesGuardThrow.canActivate, hne, Bool.false_eq_true, if_false, hcA, hany]
  · simp [RolesGuard.canActivate, hne]
  · simp [RolesGuard.canActivate, hne, hanyS]

/-- Witness for the amended C2: the spec example — an empty role set on a
route requiring ADMIN: denied with the forbidden message by the throwing
variant, and denied by the silent variant, with or without an identity. -/
theorem rolesGuard_denial_kinds_witness :
    RolesGuardThrow.canActivate (some ["ADMIN"]) none =
      .deny .forbidden "User authentication or role information missing"
  ∧ RolesGuardThrow.canActivate (some ["ADMIN"]) (some ⟨"u1", "a@b.c", some []⟩) =
      .deny .forbidden "Insufficient permissions to access this resource"
  ∧ RolesGuard.canActivate (some ["ADMIN"]) none = false
  ∧ RolesGuard.canActivate (some ["ADMIN"]) (some ⟨"u1", "a@b.c", some []⟩) = false :=
  rolesGuard_denial_kinds ["ADMIN"] (by decide) "u1" "a@b.c" [] (by decide)
    (fun r _ hr => by cases hr)

/-- C3: for a non-empty required-role list and a present identity whose
role set lacks the administrative role, both guard variants allow exactly
when the required-role list and the role set intersect. -/
theorem rolesGuard_intersection (req : List Role) (hreq : req ≠ []) (uid em : String)
    (urs : List Role) (hadmin : AccountRoles.ADMIN ∉ urs) :
    (RolesGuard.canActivate (some req) (some ⟨uid, em, some urs⟩) = true ↔
      ∃ r, r ∈ req ∧ r ∈ urs)
  ∧ (RolesGuardThrow.canActivate (some req) (some ⟨uid, em, some urs⟩) = .allow ↔
      ∃ r, r ∈ req ∧ r ∈ urs) := by
  have hne : req.isEmpty = false := by
    cases req with
    | nil => exact absurd rfl hreq
    | cons a as => rfl
  have hcA : urs.contains AccountRoles.ADMIN = false := by
    cases hc : urs.contains AccountRoles.ADMIN
    · rfl
    · exact absurd (List.elem_iff.mp hc) hadmin
  constructor
  · simp only [RolesGuard.canActivate, hne, Bool.false_eq_true, if_false]
    rw [List.any_eq_true]
    constructor
    · rintro ⟨u, hu, hru⟩
      obtain ⟨r, hr, hb⟩ := List.any_eq_true.mp hru
      exact ⟨r, hr, beq_iff_eq.mp hb ▸ hu⟩
    · rintro ⟨r, hr, hru⟩
      exact ⟨r, hru, List.any_eq_true.mpr ⟨r, hr, beq_iff_eq.mpr rfl⟩⟩
  · simp only [RolesGuardThrow.canActivate, hne, Bool.false_eq_true, if_false, hcA]
    cases ha : req.any (fun role => urs.contains role)
    · simp only [Bool.false_eq_true, if_false]
      constructor
      · intro h
        exact absurd h (by simp)
      · rintro ⟨r, hr, hru⟩
        have : req.any (fun role => urs.contains role) = true :=
          List.any_eq_true.mpr ⟨r, hr, List.elem_iff.mpr hru⟩
        rw [ha] at this
        cases this
    · simp only [if_true]
      constructor
      · intro _
        obtain ⟨r, hr, hcr⟩ := List.any_eq_true.mp ha
        exact ⟨r, hr, List.elem_iff.mp hcr⟩
      · intro _
        trivial

/-- Witness for C3: the spec example — role set ORGANIZER on a route
requiring ADMIN or ORGANIZER is allowed by both variants. -/
theorem rolesGuard_intersection_witness :
    RolesGuard.canActivate (some ["ADMIN", "ORGANIZER"])
      (some ⟨"u1", "a@b.c", some ["ORGANIZER"]⟩) = true
  ∧ RolesGuardThrow.canActivate (some ["ADMIN", "ORGANIZER"])
      (some ⟨"u1", "a@b.c", some ["ORGANIZER"]⟩) = .allow := by
  have h := rolesGuard_intersection ["ADMIN", "ORGANIZER"] (by decide) "u1" "a@b.c"
    ["ORGANIZER"] (by decide)
  exact ⟨h.1.mpr ⟨"ORGANIZER", by decide, by decide⟩, h.2.mpr ⟨"ORGANIZER", by decide, by decide⟩⟩

/-- Counterexample to C4: neither resolver variant prefers the subject
identifier with an email fallback.  With only a subject identifier present,
the email-keyed variant performs no lookup although the spec rule picks the
subject; with only an email present, the id-keyed variant performs no
lookup although the spec rule falls back to the email. -/
theorem strategy_lookup_key_cex :
    SupabaseStrategy.lookupKey ⟨some "user-1", none, none⟩ = none
  ∧ specLookupKey ⟨some "user-1", none, none⟩ = some "user-1"
  ∧ SupabaseStrategyById.lookupKey ⟨none, none, some "a@b.c"⟩ = none
  ∧ specLookupKey ⟨none, none, some "a@b.c"⟩ = some "a@b.c" := by
  refine ⟨rfl, rfl, ?_, rfl⟩
  rfl

/-- C4 (amended): each resolver variant uses one fixed lookup key.  The
email-keyed variant consults the store only at the email claim: its result
depends on the store only through that key, and with no email it performs
no lookup, yielding empty roles in production and the development default
in development.  The id-keyed variant consults the store only at the
subject identifier (the sub claim, falling back to the user_id claim), and
with neither claim it performs no lookup and yields an empty role set. -/
theorem strategy_lookup_key (env : String) (parse : String → Option JsVal) (p : JwtPayload)
    (storeE storeE' : String → StoreResult AccountRowStr)
    (storeI storeI' : String → StoreResult AccountRowArr)
    (hE : ∀ em, SupabaseStrategy.lookupKey p = some em → storeE em = storeE' em)
    (hI : ∀ uid, SupabaseStrategyById.lookupKey p = some uid → storeI uid = storeI' uid) :
    SupabaseStrategy.validate env storeE parse p = SupabaseStrategy.validate env storeE' parse p
  ∧ SupabaseStrategyById.validate storeI p = SupabaseStrategyById.validate storeI' p
  ∧ (SupabaseStrategy.lookupKey p = none →
      (SupabaseStrategy.validate env storeE parse p).user_roles =
        (if env = "development" then DEV_DEFAULT_ROLES else .jarr []))
  ∧ (SupabaseStrategyById.lookupKey p = none →
      (SupabaseStrategyById.validate storeI p).user_roles = .jarr []) := by
  have hfE : SupabaseStrategy.fetchRoles storeE parse (extractEmail p) =
      SupabaseStrategy.fetchRoles storeE' parse (extractEmail p) := by
    cases hem : extractEmail p with
    | none => rfl
    | some em =>
      simp only [SupabaseStrategy.fetchRoles]
      rw [hE em (by simpa [SupabaseStrategy.lookupKey] using hem)]
  have hfI : SupabaseStrategyById.fetchRoles storeI (extractUserId p) =
      SupabaseStrategyById.fetchRoles storeI' (extractUserId p) := by
    cases huid : extractUserId p with
    | none => rfl
    | some uid =>
      simp only [SupabaseStrategyById.fetchRoles]
      rw [hI uid (by simpa [SupabaseStrategyById.lookupKey] using huid)]
  refine ⟨?_, ?_, ?_, ?_⟩
  · simp only [SupabaseStrategy.validate]
    rw [hfE]
  · simp only [SupabaseStrategyById.validate]
    rw [hfI]
  · intro hk
    simp only [SupabaseStrategy.lookupKey] at hk
    simp only [SupabaseStrategy.validate, hk, SupabaseStrategy.fetchRoles]
    rfl
  · intro hk
    simp only [SupabaseStrategyById.lookupKey] at hk
    simp only [SupabaseStrategyById.validate, hk, SupabaseStrategyById.fetchRoles]

/-- Witness for the amended C4: with no claims at all, the email variant
yields the development default in development, and the id variant yields
empty roles, with the store never consulted. -/
theorem strategy_lookup_key_witness :
    (SupabaseStrategy.validate "development" (fun _ => StoreResult.notFound)
        (fun _ => none) ⟨none, none, none⟩).user_roles = DEV_DEFAULT_ROLES
  ∧ (SupabaseStrategyById.validate (fun _ => StoreResult.notFound)
        ⟨none, none, none⟩).user_roles = JsVal.jarr [] := by
  have h := strategy_lookup_key "development" (fun _ => none) ⟨none, none, none⟩
    (fun _ => StoreResult.notFound) (fun _ => StoreResult.notFound)
    (fun _ => StoreResult.notFound) (fun _ => StoreResult.notFound)
    (fun _ hc => nomatch hc) (fun _ hc => nomatch hc)
  refine ⟨?_, h.2.2.2 rfl⟩
  have h3 := h.2.2.1 rfl
  rw [h3]
  rfl

/-- Counterexample to C5: in the development environment the email-keyed
resolver does NOT yield an empty role set when the store finds no record —
it substitutes the default roles ADMIN and ORGANIZER. -/
theorem strategy_empty_roles_cex :
    (SupabaseStrategy.validate "development" (fun _ => StoreResult.notFound)
        (fun _ => none) ⟨none, none, some "a@b.c"⟩).user_roles = DEV_DEFAULT_ROLES
  ∧ DEV_DEFAULT_ROLES ≠ JsVal.jarr [] := by
  refine ⟨rfl, ?_⟩
  intro h
  simp [DEV_DEFAULT_ROLES] at h

/-- C5 (amended): role resolution is a total function (it never throws).
When the lookup errs, throws, or finds no record, the email-keyed variant
yields the empty role set in every environment other than development and
the default roles ADMIN, ORGANIZER in development; the same holds when the
roles string fails to parse.  When the roles string parses successfully,
the parsed value is kept as-is outside development even when it is not a
collection of strings.  The id-keyed variant yields the empty role set on
store error, thrown lookup, missing record, and non-array roles column,
in every environment, with no development default. -/
theorem strategy_failure_roles (env : String) (parse : String → Option JsVal) (p : JwtPayload)
    (storeE : String → StoreResult AccountRowStr)
    (storeI : String → StoreResult AccountRowArr) :
    (∀ em, extractEmail p = some em → (storeE em).isFailure = true →
      (SupabaseStrategy.validate env storeE parse p).user_roles =
        (if env = "development" then DEV_DEFAULT_ROLES else .jarr []))
  ∧ (∀ em row, extractEmail p = some em → storeE em = .found row → parse row.roles = none →
      (SupabaseStrategy.validate env storeE parse p).user_roles =
        (if env = "development" then DEV_DEFAULT_ROLES else .jarr []))
  ∧ (∀ em row v, extractEmail p = some em → storeE em = .found row → parse row.roles = some v →
      env ≠ "development" →
      (SupabaseStrategy.validate env storeE parse p).user_roles = v)
  ∧ (∀ uid, extractUserId p = some uid → (storeI uid).isFailure = true →
      (SupabaseStrategyById.validate storeI p).user_roles = .jarr [])
  ∧ (∀ uid row, extractUserId p = some uid → storeI uid = .found row →
      row.roles.isArray = false →
      (SupabaseStrategyById.validate storeI p).user_roles = .jarr []) := by
  refine ⟨?_, ?_, ?_, ?_, ?_⟩
  · intro em hem hfail
    have hf : SupabaseStrategy.fetchRoles storeE parse (extractEmail p) = .jarr [] := by
      rw [hem]
      simp only [SupabaseStrategy.fetchRoles]
      match hs : storeE em with
      | .err _ => rfl
      | .exn _ => rfl
      | .notFound => rfl
      | .found row => rw [hs] at hfail; simp [StoreResult.isFailure] at hfail
    simp only [SupabaseStrategy.validate, hf]
    rfl
  · intro em row hem hrow hparse
    have hf : SupabaseStrategy.fetchRoles storeE parse (extractEmail p) = .jarr [] := by
      rw [hem]
      simp only [SupabaseStrategy.fetchRoles, hrow, hparse]
    simp only [SupabaseStrategy.validate, hf]
    rfl
  · intro em row v hem hrow hparse henv
    have hf : SupabaseStrategy.fetchRoles storeE parse (extractEmail p) = v := by
      rw [hem]
      simp only [SupabaseStrategy.fetchRoles, hrow, hparse]
    simp only [SupabaseStrategy.validate, hf]
    split <;> simp [henv]
  · intro uid huid hfail
    have hf : SupabaseStrategyById.fetchRoles storeI (extractUserId p) = .jarr [] := by
      rw [huid]
      simp only [SupabaseStrategyById.fetchRoles]
      match hs : storeI uid with
      | .err _ => rfl
      | .exn _ => rfl
      | .notFound => rfl
      | .found row => rw [hs] at hfail; simp [StoreResult.isFailure] at hfail
    simp only [SupabaseStrategyById.validate, hf]
  · intro uid row huid hrow harr
    have hf : SupabaseStrategyById.fetchRoles storeI (extractUserId p) = .jarr [] := by
      rw [huid]
      simp only [SupabaseStrategyById.fetchRoles, hrow, harr]
      rfl
    simp only [SupabaseStrategyById.validate, hf]

/-- Witness for the amended C5: a missing record yields empty roles in
production for the email variant, and empty roles for the id variant. -/
theorem strategy_failure_roles_witness :
    (SupabaseStrategy.validate "production" (fun _ => StoreResult.notFound)
        (fun _ => none) ⟨none, none, some "a@b.c"⟩).user_roles = JsVal.jarr []
  ∧ (SupabaseStrategyById.validate (fun _ => StoreResult.notFound)
        ⟨some "user-1", none, none⟩).user_roles = JsVal.jarr [] := by
  have h := strategy_failure_roles "production" (fun _ => none) ⟨none, none, some "a@b.c"⟩
    (fun _ => StoreResult.notFound) (fun _ => StoreResult.notFound)
  have h2 := strategy_failure_roles "production" (fun _ => none) ⟨some "user-1", none, none⟩
    (fun _ => StoreResult.notFound) (fun _ => StoreResult.notFound)
  refine ⟨?_, h2.2.2.2.1 "user-1" rfl rfl⟩
  have h1 := h.1 "a@b.c" rfl rfl
  rw [h1]
  rfl

/-- C6: for every bearer token that fails verification, the error surfaced
by JwtAuthGuard distinguishes three kinds: a well-formed token signed with
the active secret but past its expiry maps to the session-expired error, a
well-formed token signed with a different secret maps to the
invalid-token error, and any other verification failure (a malformed
token) maps to the generic authentication-failure error; the three errors
are pairwise distinct. -/
theorem jwtAuthGuard_error_kinds (t : BearerToken) (secret : String) (now : Nat) :
    (t.wellFormed = true → t.signedWith = secret → t.exp < now →
      JwtAuthGuard.authenticate t secret now =
        .error (.unauthorized "Your session has expired. Please login again."))
  ∧ (t.wellFormed = true → t.signedWith ≠ secret →
      JwtAuthGuard.authenticate t secret now =
        .error (.unauthorized "Invalid authentication token."))
  ∧ (t.wellFormed = false →
      JwtAuthGuard.authenticate t secret now =
        .error (.unauthorized "Authentication failed. Please check your credentials."))
  ∧ AuthError.unauthorized "Your session has expired. Please login again." ≠
      .unauthorized "Invalid authentication token."
  ∧ AuthError.unauthorized "Your session has expired. Please login again." ≠
      .unauthorized "Authentication failed. Please check your credentials."
  ∧ AuthError.unauthorized "Invalid authentication token." ≠
      .unauthorized "Authentication failed. Please check your credentials." := by
  refine ⟨?_, ?_, ?_, by decide, by decide, by decide⟩
  · intro hwf hsig hexp
    have hv : verifyJwt t secret now = .error "jwt expired" := by
      simp [verifyJwt, hwf, hsig, hexp]
    simp only [JwtAuthGuard.authenticate, hv]
    rfl
  · intro hwf hsig
    have hsb : (t.signedWith != secret) = true := by
      simp [bne_iff_ne, hsig]
    have hv : verifyJwt t secret now = .error "invalid signature" := by
      simp [verifyJwt, hwf, hsb]
    simp only [JwtAuthGuard.authenticate, hv]
    rfl
  · intro hwf
    have hv : verifyJwt t secret now = .error "jwt malformed" := by
      simp [verifyJwt, hwf]
    simp only [JwtAuthGuard.authenticate, hv]
    rfl

/-- Witness for C6: a concrete expired token, a concrete wrong-secret
token, and a concrete malformed token each map to their distinct error. -/
theorem jwtAuthGuard_error_kinds_witness :
    JwtAuthGuard.authenticate ⟨⟨none, none, none⟩, 10, "secret-a", true⟩ "secret-a" 99 =
      .error (.unauthorized "Your session has expired. Please login again.")
  ∧ JwtAuthGuard.authenticate ⟨⟨none, none, none⟩, 999, "secret-b", true⟩ "secret-a" 99 =
      .error (.unauthorized "Invalid authentication token.")
  ∧ JwtAuthGuard.authenticate ⟨⟨none, none, none⟩, 999, "secret-a", false⟩ "secret-a" 99 =
      .error (.unauthorized "Authentication failed. Please check your credentials.") := by
  refine ⟨?_, ?_, ?_⟩
  · exact (jwtAuthGuard_error_kinds ⟨⟨none, none, none⟩, 10, "secret-a", true⟩ "secret-a" 99).1
      rfl rfl (by decide)
  · exact (jwtAuthGuard_error_kinds ⟨⟨none, none, none⟩, 999, "secret-b", true⟩ "secret-a" 99).2.1
      rfl (by decide)
  · exact (jwtAuthGuard_error_kinds ⟨⟨none, none, none⟩, 999, "secret-a", false⟩ "secret-a"
      99).2.2.1 rfl

/-- Unfolding of the full dispatch run. -/
theorem sendBatchEmailsRun_eq (ok : Nat → Nat → Bool) (now : Nat) (dto : SendBatchEmailsDto) :
    EmailsService.sendBatchEmailsRun ok now dto =
      dispatchGo ok now (EmailsService.batchesOf dto).length 0
        (EmailsService.batchesOf dto) ⟨[], 0, []⟩ := rfl


/-- C7: the dispatcher partitions the prepared message list into
ceil(N / MAX_BATCH_SIZE) consecutive batches, each of size at most
MAX_BATCH_SIZE, whose concatenation in order is exactly the input list. -/
theorem sendBatchEmails_partition (dto : SendBatchEmailsDto) :
    (EmailsService.batchesOf dto).flatten = dto.emails.map toBatchItem
  ∧ (EmailsService.batchesOf dto).length =
      ((dto.emails.map toBatchItem).length + (MAX_BATCH_SIZE - 1)) / MAX_BATCH_SIZE
  ∧ ∀ b, b ∈ EmailsService.batchesOf dto → b.length ≤ MAX_BATCH_SIZE := by
  refine ⟨chunksOf_flatten MAX_BATCH_SIZE (by decide) _, ?_,
    chunksOf_size_le MAX_BATCH_SIZE (by decide) _⟩
  exact chunksOf_length_twenty (dto.emails.map toBatchItem)

/-- Witness for C7 at a concrete two-message request: one batch, the
concatenation equal to the prepared input, within the size ceiling. -/
theorem sendBatchEmails_partition_witness :
    (EmailsService.batchesOf ⟨[demoEmailDto, demoEmailDto]⟩).flatten =
      [demoEmailDto, demoEmailDto].map toBatchItem
  ∧ (EmailsService.batchesOf ⟨[demoEmailDto, demoEmailDto]⟩).length = 1
  ∧ [toBatchItem demoEmailDto, toBatchItem demoEmailDto].length ≤ MAX_BATCH_SIZE := by
  have h := sendBatchEmails_partition ⟨[demoEmailDto, demoEmailDto]⟩
  refine ⟨h.1, ?_, h.2.2 [toBatchItem demoEmailDto, toBatchItem demoEmailDto] (by decide)⟩
  rw [h.2.1]
  decide

/-- C8: when batch j fails its initial attempt and every retry, the run
counts exactly one more failed batch than the same run with batch j
succeeding, the sent records are exactly the successful batches in order
(so dispatch proceeded past the exhausted batch), the messages of the exhausted batch
are absent from the sent records whenever they occur in no other
batch, and every batch in range still gets its provider call. -/
theorem sendBatchEmails_exhausted_batch (ok : Nat → Nat → Bool) (now : Nat)
    (dto : SendBatchEmailsDto) (j : Nat)
    (hj : j < (EmailsService.batchesOf dto).length)
    (hfail : ∀ a, a ≤ MAX_RETRIES → ok j a = false) :
    (EmailsService.sendBatchEmailsRun ok now dto).failedBatches =
      (EmailsService.sendBatchEmailsRun (fun i a => if i = j then true else ok i a) now
        dto).failedBatches + 1
  ∧ (EmailsService.sendBatchEmailsRun ok now dto).sent.map Email.content =
      (joinSucc ok 0 (EmailsService.batchesOf dto)).map OutboundMessage.content
  ∧ (∀ m, m ∈ ((EmailsService.batchesOf dto).get ⟨j, hj⟩).map OutboundMessage.content →
      (∀ k, (hk : k < (EmailsService.batchesOf dto).length) → k ≠ j →
        m ∉ ((EmailsService.batchesOf dto).get ⟨k, hk⟩).map OutboundMessage.content) →
      m ∉ (EmailsService.sendBatchEmailsRun ok now dto).sent.map Email.content)
  ∧ ∀ k, k < (EmailsService.batchesOf dto).length →
      DispatchEvent.sendCall k 0 ∈ (EmailsService.sendBatchEmailsRun ok now dto).events := by
  have hsuccj : batchSucceeds ok j = false := by
    simp [batchSucceeds, hfail 0 (by decide), hfail 1 (by decide), hfail 2 (by decide)]
  have hsent : (EmailsService.sendBatchEmailsRun ok now dto).sent.map Email.content =
      (joinSucc ok 0 (EmailsService.batchesOf dto)).map OutboundMessage.content := by
    rw [sendBatchEmailsRun_eq]
    rw [dispatchGo_sent_content]
    simp
  refine ⟨?_, hsent, ?_, ?_⟩
  · rw [sendBatchEmailsRun_eq, sendBatchEmailsRun_eq]
    rw [dispatchGo_failed, dispatchGo_failed]
    have hagree : ∀ m, m ≠ j →
        batchSucceeds ok m = batchSucceeds (fun i a => if i = j then true else ok i a) m := by
      intro m hm
      simp [batchSucceeds, hm]
    have hsucc : batchSucceeds (fun i a => if i = j then true else ok i a) j = true := by
      simp [batchSucceeds]
    have := countFail_succ_at ok (fun i a => if i = j then true else ok i a) j
      (EmailsService.batchesOf dto) 0 (Nat.zero_le j) (by simpa using hj)
      hagree hsuccj hsucc
    omega
  · intro m hmj hother hsent2
    rw [hsent] at hsent2
    obtain ⟨m2, hm2, hcnt⟩ := List.mem_map.mp hsent2
    obtain ⟨k, hk, hsk, hmem⟩ := mem_joinSucc ok (EmailsService.batchesOf dto) 0 m2 hm2
    rw [Nat.zero_add] at hsk
    have hkj : k ≠ j := by
      intro h
      rw [h] at hsk
      rw [hsuccj] at hsk
      cases hsk
    exact hother k hk hkj (List.mem_map.mpr ⟨m2, hmem, hcnt⟩)
  · intro k hk
    have h := dispatchGo_sendCall ok now (EmailsService.batchesOf dto).length
      (EmailsService.batchesOf dto) 0 ⟨[], 0, []⟩ k hk
    rw [Nat.zero_add] at h
    rw [sendBatchEmailsRun_eq]
    exact h

/-- Witness for C8: 21 identical messages form two batches; with batch 0
failing every attempt and batch 1 succeeding, the failed count is one more
than in the run where batch 0 succeeds. -/
theorem sendBatchEmails_exhausted_batch_witness :
    (EmailsService.sendBatchEmailsRun (fun i _ => decide (i ≠ 0)) 7 demoBatchDto).failedBatches =
      (EmailsService.sendBatchEmailsRun
        (fun i a => if i = 0 then true else (fun i _ => decide (i ≠ 0)) i a) 7
        demoBatchDto).failedBatches + 1 :=
  (sendBatchEmails_exhausted_batch (fun i _ => decide (i ≠ 0)) 7 demoBatchDto 0
    (by decide) (fun _ _ => rfl)).1

/-- C10: on the empty message list the dispatcher performs no provider
call and no delay of any kind (the event trace is empty), records no
failed batch, and returns the empty sent list. -/
theorem sendBatchEmails_empty (ok : Nat → Nat → Bool) (now : Nat) :
    EmailsService.sendBatchEmailsRun ok now ⟨[]⟩ = ⟨[], 0, []⟩
  ∧ EmailsService.sendBatchEmails ok now ⟨[]⟩ = [] :=
  ⟨rfl, rfl⟩

/-- Counterexample to C9: the value sendBatchEmails returns to its caller
does not carry the failed-batch count — no function of the returned sent
list recovers the count, because the empty request and a one-message
request whose only batch exhausts its retries both return the empty list
while their failed-batch counts differ (0 versus 1). -/
theorem sendBatchEmails_result_no_count_cex :
    ¬ ∃ f : List Email → Nat, ∀ (ok : Nat → Nat → Bool) (now : Nat) (dto : SendBatchEmailsDto),
      f (EmailsService.sendBatchEmails ok now dto) =
        (EmailsService.sendBatchEmailsRun ok now dto).failedBatches := by
  rintro ⟨f, hf⟩
  have h0 := hf (fun _ _ => false) 0 ⟨[]⟩
  have h1 := hf (fun _ _ => false) 0 ⟨[demoEmailDto]⟩
  rw [show EmailsService.sendBatchEmails (fun _ _ => false) 0 ⟨[]⟩ = [] from rfl] at h0
  rw [show (EmailsService.sendBatchEmailsRun (fun _ _ => false) 0 ⟨[]⟩).failedBatches = 0
    from rfl] at h0
  rw [show EmailsService.sendBatchEmails (fun _ _ => false) 0 ⟨[demoEmailDto]⟩ = [] from rfl] at h1
  rw [show (EmailsService.sendBatchEmailsRun (fun _ _ => false) 0
      ⟨[demoEmailDto]⟩).failedBatches = 1 from rfl] at h1
  omega

/-- C9 (amended): the dispatch function returns only the sent records: its
return value is exactly the messages of the successful batches in order, for any
pattern of batch failures — a partial failure is surfaced as this normal
return, not as a thrown error — while the failed-batch count is tracked
(and logged) inside the run but is not part of the returned value. -/
theorem sendBatchEmails_partial_result (ok : Nat → Nat → Bool) (now : Nat)
    (dto : SendBatchEmailsDto) :
    (EmailsService.sendBatchEmails ok now dto).map Email.content =
      (joinSucc ok 0 (EmailsService.batchesOf dto)).map OutboundMessage.content
  ∧ (EmailsService.sendBatchEmailsRun ok now dto).failedBatches =
      countFail ok 0 (EmailsService.batchesOf dto) := by
  constructor
  · show (EmailsService.sendBatchEmailsRun ok now dto).sent.map Email.content = _
    rw [sendBatchEmailsRun_eq, dispatchGo_sent_content]
    simp
  · rw [sendBatchEmailsRun_eq, dispatchGo_failed]
    simp
